import Mathlib

/-!
# Verification of the DicomInsight viewer core (src/DicomInsight.py)

Shallow embedding of the tree-builder and search/navigation logic of
`DicomViewer` in `src/DicomInsight.py`, together with theorems settling the
frozen claims about it.

Modelling conventions:

* A `QTreeWidgetItem` is modelled by `TreeNode` (its four text columns plus
  its ordered children).  A reference to a tree item is modelled by the
  item's position in the pre-order traversal of the whole widget, which is
  exactly the order of `QTreeWidgetItemIterator`.
* A pydicom element is modelled by `Element`.  Every pydicom data element
  has `tag`, `VR` and `value` attributes; the source nevertheless guards
  `tag` (line 124) and `value` (line 143) with `hasattr`, so those two stay
  optional in the model, while `VR` is accessed unguarded at line 133 and is
  modelled as always present.
* `str(elem.value)` may raise; its outcome is part of the `EValue` datum
  (`scalar s` = stringifies to `s`, `strFails msg` = raises with message
  `msg`, `items l` = the value is a pydicom `Sequence` of item datasets).
* Background colours: the source only ever paints items white (everywhere)
  or yellow (the single current result, painted after a global white
  sweep), so the background state is the list of pre-order positions of
  yellow items (`[]` or a singleton at every reachable state).
* The status label is modelled as the log of all `update_status` calls, so
  that the order of reported messages is observable; the currently
  displayed text is the last entry.
* The module namespace of `DicomInsight.py` does not bind the name
  `QTreeWidgetItemIterator` (it is absent from the `PyQt6.QtWidgets` import
  list at lines 8-10), so at runtime every use of it raises `NameError`.
  `moduleScopeNames` records the actual module scope and the `*_rt`
  functions give the resulting runtime behaviour; the remaining definitions
  give `QTreeWidgetItemIterator` its documented PyQt semantics (pre-order
  iteration over all items), which is what the surrounding algorithm is
  written against.
-/

/-- A tree item: the four text columns (Tag, Name, VR, Value — `setText`
columns 0,1,2,3; a column never set reads back as `""`) and the ordered
child items. -/
inductive TreeNode : Type where
  | mk (col0 col1 col2 col3 : String) (children : List TreeNode)

def TreeNode.col0 : TreeNode → String
  | .mk c _ _ _ _ => c

def TreeNode.col1 : TreeNode → String
  | .mk _ c _ _ _ => c

def TreeNode.col2 : TreeNode → String
  | .mk _ _ c _ _ => c

def TreeNode.col3 : TreeNode → String
  | .mk _ _ _ c _ => c

def TreeNode.children : TreeNode → List TreeNode
  | .mk _ _ _ _ ch => ch

/-- The four text columns of a node, as a tuple. -/
def TreeNode.cols (n : TreeNode) : String × String × String × String :=
  (n.col0, n.col1, n.col2, n.col3)

mutual
/-- One pydicom data element: optional `(group, element)` tag, `name`,
`VR` (always present on pydicom elements; line 133 reads it unguarded),
and its value. -/
inductive Element : Type where
  | mk (tag : Option (Nat × Nat)) (name : String) (vr : String) (value : EValue)

/-- The `value` attribute of an element, together with how `str()` behaves
on it. `absent` models `hasattr(elem, 'value') = False`. -/
inductive EValue : Type where
  | absent : EValue
  | scalar (s : String) : EValue
  | strFails (msg : String) : EValue
  | items (seq : List (List Element)) : EValue
end

def Element.name : Element → String
  | .mk _ n _ _ => n

def Element.vr : Element → String
  | .mk _ _ v _ => v

/-- The item-dataset list of a sequence value (`elem.value` iterated /
`len`-ed by the `VR == "SQ"` branch).  A non-sequence value under VR "SQ"
would make the Python `len`/iteration misbehave; such elements violate the
Reader contract (pydicom always pairs VR "SQ" with a `Sequence` value) and
take the `[]` default here. -/
def itemsOf : EValue → List (List Element)
  | .items l => l
  | _ => []

/-- `str(elem.value) if hasattr(elem, 'value') else "N/A"` (line 143):
`.ok` is the computed string, `.error` the message of the exception raised
by `str`.  `str` of a pydicom `Sequence` value succeeds; its exact text is
irrelevant to every claim (an element whose VR is "SQ" never reaches this
code path). -/
def pyStrValue : EValue → Except String String
  | .absent => .ok "N/A"
  | .scalar s => .ok s
  | .strFails msg => .error msg
  | .items l => .ok ("<sequence of " ++ toString l.length ++ " datasets>")

/-- One uppercase hex digit. -/
def hexDigit (n : Nat) : Char :=
  if n < 10 then Char.ofNat (48 + n) else Char.ofNat (55 + n)

/-- Python's `f"{n:04X}"` for a 16-bit tag component (pydicom tag group and
element numbers are 16-bit). -/
def hex4 (n : Nat) : String :=
  String.mk [hexDigit (n / 4096 % 16), hexDigit (n / 256 % 16),
             hexDigit (n / 16 % 16), hexDigit (n % 16)]

/-- `f"({elem.tag.group:04X},{elem.tag.element:04X})"` or `"Unknown"`
(line 124). -/
def tagLabel : Option (Nat × Nat) → String
  | some (g, e) => "(" ++ hex4 g ++ "," ++ hex4 e ++ ")"
  | none => "Unknown"

mutual
/-- `DicomViewer.add_dicom_elements_to_tree` (lines 122-155), as the pure
function from the dataset to the forest of built items (the Python builds
the same forest by appending to `self.tree` / `parent`). -/
def add_dicom_elements_to_tree : List Element → List TreeNode
  | [] => []
  | e :: rest => buildElem e :: add_dicom_elements_to_tree rest

/-- The single item built for one element (lines 124-155). -/
def buildElem : Element → TreeNode
  | .mk tag name vr value =>
    let tagStr := tagLabel tag
    if vr = "SQ" then
      TreeNode.mk tagStr name "SQ"
        ("Sequence: " ++ toString (itemsOf value).length ++ " items")
        (buildValueItems value)
    else if name ≠ "Pixel Data" then
      match pyStrValue value with
      | .ok v => TreeNode.mk tagStr name vr v []
      | .error e => TreeNode.mk tagStr name "N/A" ("Cannot display: " ++ e) []
    else
      TreeNode.mk tagStr name vr "[Image Data]" []

/-- Children of a sequence node: the loop of lines 137-140 over
`enumerate(elem.value)`. -/
def buildValueItems : EValue → List TreeNode
  | .items l => buildSeqItems l 0
  | _ => []

/-- `for i, seq_item in enumerate(elem.value): child = "Item {i+1}";
recurse into seq_item under child` — `i` is the 0-based enumerate index. -/
def buildSeqItems : List (List Element) → Nat → List TreeNode
  | [], _ => []
  | it :: rest, i =>
      TreeNode.mk ("Item " ++ toString (i + 1)) "" "" ""
        (add_dicom_elements_to_tree it) :: buildSeqItems rest (i + 1)
end

/-- Pre-order traversal of a forest of tree items: the visit order of
`QTreeWidgetItemIterator` over the whole widget. -/
def flattenForest : List TreeNode → List TreeNode
  | [] => []
  | .mk c0 c1 c2 c3 ch :: rest =>
      TreeNode.mk c0 c1 c2 c3 ch :: (flattenForest ch ++ flattenForest rest)

/-- Python's `str.strip()`: drop leading and trailing whitespace. -/
def pyStrip (s : String) : String :=
  String.mk (((s.data.dropWhile Char.isWhitespace).reverse.dropWhile
    Char.isWhitespace).reverse)

/-- Python's `str.lower()`: lower-case character by character. -/
def pyLower (s : String) : String :=
  String.mk (s.data.map Char.toLower)

/-- Python's substring test `need in hay` on strings. -/
def strContains (hay need : String) : Bool :=
  decide (need.data <:+: hay.data)

/-- The per-item match condition of lines 223-225:
`(search_tag and text in item.text(0).lower()) or
 (search_name and text in item.text(1).lower()) or
 (search_value and text in item.text(3).lower())`. -/
def nodeMatches (search_text : String) (search_tag search_name search_value : Bool)
    (n : TreeNode) : Bool :=
  (search_tag && strContains (pyLower n.col0) search_text) ||
  (search_name && strContains (pyLower n.col1) search_text) ||
  (search_value && strContains (pyLower n.col3) search_text)

/-- The iterator loop of `find_matching_items` (lines 219-227) over the
pre-order item list, collecting the matching items' pre-order positions;
`start` is the position of the head of `l`. -/
def collectMatches (search_text : String) (search_tag search_name search_value : Bool) :
    List TreeNode → Nat → List Nat
  | [], _ => []
  | n :: rest, start =>
      if nodeMatches search_text search_tag search_name search_value n then
        start :: collectMatches search_text search_tag search_name search_value rest (start + 1)
      else
        collectMatches search_text search_tag search_name search_value rest (start + 1)

/-- `DicomViewer.find_matching_items` (lines 218-228): matching items in
iterator (pre-order) order, each item denoted by its pre-order position. -/
def find_matching_items (tree : List TreeNode) (search_text : String)
    (search_tag search_name search_value : Bool) : List Nat :=
  collectMatches search_text search_tag search_name search_value (flattenForest tree) 0

/-- The mutable state of `DicomViewer` touched by the modelled methods. -/
structure ViewerState : Type where
  /-- the forest of top-level items of `self.tree` -/
  tree : List TreeNode
  /-- `self.search_results` (items by pre-order position) -/
  searchResults : List Nat
  /-- `self.current_result_index` -/
  currentResultIndex : Int
  /-- pre-order positions of items painted yellow -/
  yellow : List Nat
  /-- every `update_status` message so far, oldest first -/
  statusLog : List String
  /-- `self.windowTitle()` -/
  windowTitle : String
  /-- `self.last_file_path` -/
  lastFilePath : Option String

/-- `DicomViewer.update_status` (lines 191-192). -/
def update_status (message : String) (s : ViewerState) : ViewerState :=
  { s with statusLog := s.statusLog ++ [message] }

/-- `DicomViewer.reset_search_results` (lines 178-189), with the iterator
resolved: empty the result list, park the cursor, paint every item white. -/
def reset_search_results (s : ViewerState) : ViewerState :=
  { s with searchResults := [], currentResultIndex := -1, yellow := [] }

/-- `DicomViewer.highlight_current_result` (lines 230-251): guard, then a
global white sweep followed by painting the current item yellow and
reporting `"Result {index+1}/{len}"` (scrolling is display-only). -/
def highlight_current_result (s : ViewerState) : ViewerState :=
  if s.searchResults.isEmpty || s.currentResultIndex < 0 ||
      s.currentResultIndex ≥ s.searchResults.length then
    s
  else
    let item := s.searchResults.getD s.currentResultIndex.toNat 0
    update_status
      ("Result " ++ toString (s.currentResultIndex + 1) ++ "/" ++
        toString s.searchResults.length)
      { s with yellow := [item] }

/-- `DicomViewer.goto_next_result` (lines 253-257).  Python's `%` on a
positive modulus is `Int.emod` (always non-negative there). -/
def goto_next_result (s : ViewerState) : ViewerState :=
  if s.searchResults.isEmpty then s
  else
    highlight_current_result
      { s with currentResultIndex :=
          (s.currentResultIndex + 1) % (s.searchResults.length : Int) }

/-- `DicomViewer.goto_previous_result` (lines 259-263). -/
def goto_previous_result (s : ViewerState) : ViewerState :=
  if s.searchResults.isEmpty then s
  else
    highlight_current_result
      { s with currentResultIndex :=
          (s.currentResultIndex - 1) % (s.searchResults.length : Int) }

/-- `DicomViewer.search_tree` (lines 194-216); `query` is the text of the
search box, the three Booleans the checkbox states. -/
def search_tree (search_tag search_name search_value : Bool) (query : String)
    (s : ViewerState) : ViewerState :=
  let search_text := pyLower (pyStrip query)
  if search_text = "" then
    update_status "Please enter search text" s
  else
    let s1 := reset_search_results s
    if !(search_tag || search_name || search_value) then
      update_status "Please select at least one search option" s1
    else
      let results := find_matching_items s1.tree search_text
        search_tag search_name search_value
      let s2 := { s1 with searchResults := results }
      if !results.isEmpty then
        goto_next_result
          (update_status ("Found " ++ toString results.length ++ " matches") s2)
      else
        update_status ("No matches found for: " ++ search_text) s2

/-- `DicomViewer.open_file` (lines 101-120) on a truthy chosen path.
`readResult` is the outcome of `pydicom.dcmread(file_path)` (the Reader
collaborator): `.ok` the decoded dataset, `.error` the message of the
raised exception.  `baseName` is `os.path.basename(filePath)`.  Note the
order in the `try` block: `self.tree.clear()` runs before `dcmread`
(clearing deletes every item, and with it any yellow paint). -/
def open_file (readResult : Except String (List Element))
    (filePath baseName : String) (s : ViewerState) : ViewerState :=
  let s1 : ViewerState := { s with tree := [], yellow := [] }
  match readResult with
  | .ok ds =>
      update_status ("Successfully opened file: " ++ baseName)
        { s1 with tree := add_dicom_elements_to_tree ds,
                  windowTitle := "DICOM Viewer - " ++ baseName,
                  lastFilePath := some filePath }
  | .error e =>
      update_status ("Failed to open file: " ++ e) s1

/-- Every name bound at module level in `DicomInsight.py`: the plain
imports (lines 1-3), the `typing` names (line 4), `pydicom` (line 6),
`QColor` (line 7), the `PyQt6.QtWidgets` import list (lines 8-10), the
`pydicom.dataset` names (line 11), and the two classes defined in the
file. -/
def moduleScopeNames : List String :=
  ["json", "os", "sys", "List", "Optional", "Union", "pydicom", "QColor",
   "QApplication", "QMainWindow", "QPushButton", "QFileDialog", "QTreeWidget",
   "QTreeWidgetItem", "QVBoxLayout", "QHBoxLayout", "QWidget", "QLabel",
   "QLineEdit", "QCheckBox", "QMessageBox", "Dataset", "FileDataset",
   "PlaceholderLineEdit", "DicomViewer"]

/-- `search_tree` with Python name resolution made explicit: once the
empty-query guard is passed, line 200 calls `reset_search_results`, whose
first statement after the two assignments constructs
`QTreeWidgetItemIterator(self.tree)` (line 184); looking that name up in
the module scope fails, so the call raises `NameError` and the slot
terminates in an unhandled exception (`.error`). -/
def search_tree_rt (search_tag search_name search_value : Bool) (query : String)
    (s : ViewerState) : Except String ViewerState :=
  let search_text := pyLower (pyStrip query)
  if search_text = "" then
    .ok (update_status "Please enter search text" s)
  else if moduleScopeNames.contains "QTreeWidgetItemIterator" then
    .ok (search_tree search_tag search_name search_value query s)
  else
    .error "NameError: name QTreeWidgetItemIterator is not defined"

/-- One entry of the document order of a dataset, used to state order
preservation of the builder: either a source element or the synthetic
header of the k-th sequence item (1-indexed). -/
inductive DocEntry : Type where
  | elem (e : Element)
  | header (k : Nat)

mutual
/-- Modelled from the spec: "Node ordering is exactly document order of
the source Element sequence: siblings preserve source order; a sequence's
children are, in order, one synthetic `Item k` header node per source item
(1-indexed, k = 1..N), each holding that item's own sub-tree as children."
This lists the document order of a dataset independently of the builder,
for comparison with the builder's pre-order traversal. -/
def specDocOrder : List Element → List DocEntry
  | [] => []
  | e :: rest => DocEntry.elem e :: (specDocChildren e ++ specDocOrder rest)

/-- The document-order entries sitting below one element: the item headers
and item subtrees of a sequence element, nothing for a leaf. -/
def specDocChildren : Element → List DocEntry
  | .mk _ _ vr value => if vr = "SQ" then specDocValueItems value else []

/-- Document-order entries of a sequence value's items, 1-indexed. -/
def specDocValueItems : EValue → List DocEntry
  | .items l => specDocItems l 1
  | _ => []

/-- `Item k` header followed by the item's own document order, for
k, k+1, ... -/
def specDocItems : List (List Element) → Nat → List DocEntry
  | [], _ => []
  | it :: rest, k =>
      DocEntry.header k :: (specDocOrder it ++ specDocItems rest (k + 1))
end

/-- The four display columns the builder assigns to a document entry: the
built columns of an element, and `Item k` in the first (Tag) column with
the other three empty for a synthetic item header. -/
def DocEntry.cols : DocEntry → String × String × String × String
  | .elem e => (buildElem e).cols
  | .header k => ("Item " ++ toString k, "", "", "")

mutual
/-- Number of source elements of a dataset, counting recursively through
the items of sequence (`VR = "SQ"`) elements. -/
def countElements : List Element → Nat
  | [] => 0
  | e :: rest => countElementsOfElem e + countElements rest

/-- Elements contributed by one element: itself, plus its nested elements
when it is a sequence. -/
def countElementsOfElem : Element → Nat
  | .mk _ _ vr value => 1 + (if vr = "SQ" then countElementsOfValue value else 0)

/-- Elements nested in a sequence value. -/
def countElementsOfValue : EValue → Nat
  | .items l => countElementsOfItems l
  | _ => 0

/-- Elements of a list of item datasets. -/
def countElementsOfItems : List (List Element) → Nat
  | [] => 0
  | it :: rest => countElements it + countElementsOfItems rest
end

mutual
/-- Number of sequence items of a dataset, counting recursively (one per
item of every sequence element at every depth). -/
def countSeqItems : List Element → Nat
  | [] => 0
  | e :: rest => countSeqItemsOfElem e + countSeqItems rest

/-- Sequence items contributed by one element. -/
def countSeqItemsOfElem : Element → Nat
  | .mk _ _ vr value => if vr = "SQ" then countSeqItemsOfValue value else 0

/-- Items of a sequence value: its own items plus all nested ones. -/
def countSeqItemsOfValue : EValue → Nat
  | .items l => l.length + countSeqItemsOfItems l
  | _ => 0

/-- Sequence items of a list of item datasets. -/
def countSeqItemsOfItems : List (List Element) → Nat
  | [] => 0
  | it :: rest => countSeqItems it + countSeqItemsOfItems rest
end

instance : Inhabited TreeNode := ⟨.mk "" "" "" "" []⟩

/-- A concrete leaf element (spec scenario 1). -/
def patientNameElem : Element :=
  .mk (some (16, 16)) "Patient Name" "PN" (.scalar "Doe^John")

/-- The item the builder produces for `patientNameElem`. -/
def patientNameNode : TreeNode :=
  .mk "(0010,0010)" "Patient Name" "PN" "Doe^John" []

/-- A concrete sequence element with one item. -/
def seqElem : Element :=
  .mk (some (8, 4373)) "Referenced Series Sequence" "SQ" (.items [[patientNameElem]])

/-- A viewer showing one leaf element, no search performed yet. -/
def freshViewer : ViewerState :=
  ⟨[patientNameNode], [], -1, [], [], "DICOM Viewer", none⟩

/-- A viewer in the state reached from `freshViewer` after a successful
search with one hit: one match at pre-order position 0, cursor on it,
that item highlighted. -/
def viewerWithResult : ViewerState :=
  ⟨[patientNameNode], [0], 0, [0], ["Found 1 matches", "Result 1/1"],
   "DICOM Viewer", some "/data/a.dcm"⟩

/-! ## Helper lemmas -/

theorem pyLower_empty : pyLower "" = "" := rfl

theorem pyLower_ne_empty {s : String} (h : s ≠ "") : pyLower s ≠ "" := by
  intro hc
  apply h
  cases s with
  | mk d =>
    have hd : d.map Char.toLower = [] := by
      have h2 := congrArg String.data hc
      simpa [pyLower] using h2
    have h3 : d = [] := by simpa using hd
    subst h3
    decide

theorem flattenForest_cons (n : TreeNode) (rest : List TreeNode) :
    flattenForest (n :: rest) =
      n :: (flattenForest n.children ++ flattenForest rest) := by
  cases n with
  | mk c0 c1 c2 c3 ch => simp [flattenForest, TreeNode.children]

theorem flattenForest_append (a b : List TreeNode) :
    flattenForest (a ++ b) = flattenForest a ++ flattenForest b := by
  induction a with
  | nil => simp [flattenForest]
  | cons n rest ih =>
    rw [List.cons_append, flattenForest_cons, flattenForest_cons, ih]
    simp

theorem mem_collectMatches (t : String) (b1 b2 b3 : Bool) (l : List TreeNode) :
    ∀ start i : Nat,
      i ∈ collectMatches t b1 b2 b3 l start ↔
        start ≤ i ∧ i - start < l.length ∧
          nodeMatches t b1 b2 b3 (l.getD (i - start) default) = true := by
  induction l with
  | nil => intro start i; simp [collectMatches]
  | cons n rest ih =>
    intro start i
    simp only [collectMatches]
    by_cases hm : nodeMatches t b1 b2 b3 n = true
    · rw [if_pos hm]
      constructor
      · intro h
        rcases List.mem_cons.mp h with h1 | h2
        · subst h1
          simpa using hm
        · obtain ⟨h3, h4, h5⟩ := (ih (start + 1) i).mp h2
          refine ⟨by omega, by simp only [List.length_cons]; omega, ?_⟩
          have he : i - start = (i - (start + 1)) + 1 := by omega
          rw [he, List.getD_cons_succ]
          exact h5
      · rintro ⟨h3, h4, h5⟩
        by_cases hi : i = start
        · subst hi; exact List.mem_cons_self _ _
        · apply List.mem_cons_of_mem
          apply (ih (start + 1) i).mpr
          refine ⟨by omega, by simp only [List.length_cons] at h4; omega, ?_⟩
          have he : i - start = (i - (start + 1)) + 1 := by omega
          rw [he, List.getD_cons_succ] at h5
          exact h5
    · rw [if_neg hm]
      constructor
      · intro h
        obtain ⟨h3, h4, h5⟩ := (ih (start + 1) i).mp h
        refine ⟨by omega, by simp only [List.length_cons]; omega, ?_⟩
        have he : i - start = (i - (start + 1)) + 1 := by omega
        rw [he, List.getD_cons_succ]
        exact h5
      · rintro ⟨h3, h4, h5⟩
        by_cases hi : i = start
        · subst hi
          simp only [Nat.sub_self, List.getD_cons_zero] at h5
          exact absurd h5 hm
        · apply (ih (start + 1) i).mpr
          refine ⟨by omega, by simp only [List.length_cons] at h4; omega, ?_⟩
          have he : i - start = (i - (start + 1)) + 1 := by omega
          rw [he, List.getD_cons_succ] at h5
          exact h5

theorem mem_find_matching_items (tree : List TreeNode) (t : String)
    (b1 b2 b3 : Bool) (i : Nat) :
    i ∈ find_matching_items tree t b1 b2 b3 ↔
      i < (flattenForest tree).length ∧
        nodeMatches t b1 b2 b3 ((flattenForest tree).getD i default) = true := by
  have h := mem_collectMatches t b1 b2 b3 (flattenForest tree) 0 i
  simpa [find_matching_items] using h

theorem collectMatches_sorted (t : String) (b1 b2 b3 : Bool)
    (l : List TreeNode) :
    ∀ start : Nat,
      List.Chain' (· < ·) (collectMatches t b1 b2 b3 l start) ∧
        ∀ x ∈ collectMatches t b1 b2 b3 l start, start ≤ x := by
  induction l with
  | nil => intro start; simp [collectMatches]
  | cons n rest ih =>
    intro start
    obtain ⟨hc, hb⟩ := ih (start + 1)
    simp only [collectMatches]
    by_cases hm : nodeMatches t b1 b2 b3 n = true
    · rw [if_pos hm]
      refine ⟨List.chain'_cons'.mpr ⟨?_, hc⟩, ?_⟩
      · intro y hy
        have := hb y (List.mem_of_mem_head? hy)
        omega
      · intro x hx
        rcases List.mem_cons.mp hx with h | h
        · omega
        · have := hb x h; omega
    · rw [if_neg hm]
      exact ⟨hc, fun x hx => by have := hb x hx; omega⟩

theorem highlight_preserves (s : ViewerState) :
    (highlight_current_result s).searchResults = s.searchResults ∧
      (highlight_current_result s).currentResultIndex = s.currentResultIndex ∧
      (highlight_current_result s).tree = s.tree := by
  refine ⟨?_, ?_, ?_⟩ <;>
    (unfold highlight_current_result; split <;> simp [update_status])

theorem goto_next_result_spec (s : ViewerState) (h : s.searchResults ≠ []) :
    (goto_next_result s).currentResultIndex =
        (s.currentResultIndex + 1) % (s.searchResults.length : Int) ∧
      (goto_next_result s).searchResults = s.searchResults ∧
      (goto_next_result s).tree = s.tree := by
  unfold goto_next_result
  rw [if_neg (by simpa using h)]
  obtain ⟨h1, h2, h3⟩ := highlight_preserves
    { s with currentResultIndex :=
        (s.currentResultIndex + 1) % (s.searchResults.length : Int) }
  exact ⟨h2, h1, h3⟩

theorem goto_previous_result_spec (s : ViewerState) (h : s.searchResults ≠ []) :
    (goto_previous_result s).currentResultIndex =
        (s.currentResultIndex - 1) % (s.searchResults.length : Int) ∧
      (goto_previous_result s).searchResults = s.searchResults ∧
      (goto_previous_result s).tree = s.tree := by
  unfold goto_previous_result
  rw [if_neg (by simpa using h)]
  obtain ⟨h1, h2, h3⟩ := highlight_preserves
    { s with currentResultIndex :=
        (s.currentResultIndex - 1) % (s.searchResults.length : Int) }
  exact ⟨h2, h1, h3⟩

theorem emod_add_one_emod (a n : Int) : (a % n + 1) % n = (a + 1) % n := by
  conv_rhs => rw [Int.add_emod]
  rw [Int.add_emod (a % n) 1, Int.emod_emod_of_dvd _ dvd_rfl]

theorem emod_sub_one_emod (a n : Int) : (a % n - 1) % n = (a - 1) % n := by
  conv_rhs => rw [Int.sub_emod]
  rw [Int.sub_emod (a % n) 1, Int.emod_emod_of_dvd _ dvd_rfl]

theorem add_len_emod (c n : Int) (h0 : 0 ≤ c) (h1 : c < n) : (c + n) % n = c := by
  have h2 : (c + n * 1) % n = c % n := Int.add_mul_emod_self_left c n 1
  rw [mul_one] at h2
  rw [h2, Int.emod_eq_of_lt h0 h1]

theorem neg_one_emod (n : Int) (h : 0 < n) : (-1 : Int) % n = n - 1 := by
  have h2 : ((-1 : Int) + n * 1) % n = (-1 : Int) % n := Int.add_mul_emod_self_left (-1) n 1
  rw [mul_one] at h2
  rw [← h2]
  have h3 : (-1 : Int) + n = n - 1 := by ring
  rw [h3, Int.emod_eq_of_lt (by omega) (by omega)]

theorem goto_next_iterate (s : ViewerState) (h : s.searchResults ≠ [])
    (h0 : 0 ≤ s.currentResultIndex)
    (h1 : s.currentResultIndex < s.searchResults.length) :
    ∀ k : Nat,
      (goto_next_result^[k] s).searchResults = s.searchResults ∧
        (goto_next_result^[k] s).currentResultIndex =
          (s.currentResultIndex + k) % (s.searchResults.length : Int) := by
  intro k
  induction k with
  | zero =>
    refine ⟨rfl, ?_⟩
    simp only [Function.iterate_zero, id_eq, Nat.cast_zero, add_zero]
    exact (Int.emod_eq_of_lt h0 h1).symm
  | succ k ih =>
    obtain ⟨ihr, ihc⟩ := ih
    rw [Function.iterate_succ_apply']
    have hne : (goto_next_result^[k] s).searchResults ≠ [] := by rw [ihr]; exact h
    obtain ⟨hc, hr, _⟩ := goto_next_result_spec _ hne
    refine ⟨by rw [hr, ihr], ?_⟩
    rw [hc, ihr, ihc, emod_add_one_emod]
    congr 1
    push_cast
    ring

theorem goto_next_from_reset (s3 : ViewerState) (m : Nat) (ms : List Nat)
    (hres : s3.searchResults = m :: ms) (hcur : s3.currentResultIndex = -1) :
    goto_next_result s3 =
      update_status ("Result 1/" ++ toString (m :: ms).length)
        { s3 with currentResultIndex := 0, yellow := [m] } := by
  unfold goto_next_result
  rw [if_neg (by simp [hres])]
  have hc : (s3.currentResultIndex + 1) % (s3.searchResults.length : Int) = 0 := by
    rw [hcur]
    norm_num
  rw [hc]
  unfold highlight_current_result
  split
  next hguard =>
    simp [hres] at hguard
    omega
  next =>
    have hone : toString ((1 : Int)) = "1" := by decide
    simp [hres, hone, update_status]

/-! ## Claims C1 - C5 -/

/-- C1 (code bug): a search with a non-empty trimmed query and all three
field flags enabled does NOT run to completion: `search_tree` immediately
calls `reset_search_results`, which evaluates the name
`QTreeWidgetItemIterator` (line 184); that name is not bound in the module
scope of `DicomInsight.py`, so the call raises `NameError` and the search
terminates in an unhandled failure, contrary to the claim. -/
theorem search_crashes_on_missing_iterator_import :
    search_tree_rt true true true "a" viewerWithResult =
      .error "NameError: name QTreeWidgetItemIterator is not defined" := rfl

/-- C2 (amended): when the Reader fails to decode, the load is aborted and
the prior search state (match list and cursor), window title and last file
path remain unchanged, and the failure is reported with the underlying
reason — but the prior tree does NOT remain: `self.tree.clear()` runs
before `pydicom.dcmread`, so the tree (and with it any highlight) is
already gone when the decode fails. -/
theorem open_file_failure_keeps_search_state
    (err filePath baseName : String) (s : ViewerState) :
    open_file (.error err) filePath baseName s =
      { s with tree := [], yellow := [],
               statusLog := s.statusLog ++ ["Failed to open file: " ++ err] } := rfl

/-- C2 counterexample: at a state whose tree shows one item, a failed load
leaves an empty tree, so the prior tree does not remain unchanged as the
claim states. -/
theorem open_file_failure_clears_tree_cex :
    (open_file (.error "boom") "/data/a.dcm" "a.dcm" viewerWithResult).tree.length = 0 ∧
      viewerWithResult.tree.length = 1 := by decide

/-- C3 (amended): an element named exactly `"Pixel Data"` whose type code
is not `"SQ"` always renders `displayValue = "[Image Data]"`, whatever its
value (present, absent, or failing to stringify). -/
theorem pixel_data_non_sq_elided (tag : Option (Nat × Nat))
    (name vr : String) (value : EValue) (hn : name = "Pixel Data")
    (hv : vr ≠ "SQ") :
    (buildElem (.mk tag name vr value)).col3 = "[Image Data]" := by
  subst hn
  simp [buildElem, hv, TreeNode.col3]

/-- Witness for `pixel_data_non_sq_elided` at spec scenario 3. -/
theorem pixel_data_non_sq_elided_witness :
    ("Pixel Data" = "Pixel Data" ∧ "OB" ≠ "SQ") ∧
      (buildElem (.mk none "Pixel Data" "OB" (.scalar "huge opaque blob"))).col3 =
        "[Image Data]" :=
  ⟨⟨rfl, by decide⟩,
    pixel_data_non_sq_elided none "Pixel Data" "OB" (.scalar "huge opaque blob")
      rfl (by decide)⟩

/-- C3 counterexample: a `"Pixel Data"` element whose declared type code
is `"SQ"` takes the sequence branch (checked first, line 133), so its
display value is the sequence summary, not `"[Image Data]"` — the claim's
"including SQ" fails. -/
theorem pixel_data_sq_not_elided_cex :
    (buildElem (.mk none "Pixel Data" "SQ" (.items []))).col3 =
        "Sequence: 0 items" ∧
      (buildElem (.mk none "Pixel Data" "SQ" (.items []))).col3 ≠
        "[Image Data]" := by
  have h : (buildElem (.mk none "Pixel Data" "SQ" (.items []))).col3 =
      "Sequence: 0 items" := by
    simp only [buildElem]
    rfl
  exact ⟨h, by rw [h]; decide⟩

/-- C4 (amended): on a query that is empty after stripping, no search is
performed and "Please enter search text" is reported, but nothing is
cleared: `search_tree` returns before `reset_search_results`, so the match
list, cursor, and highlight keep their previous values. -/
theorem empty_query_only_reports (b1 b2 b3 : Bool) (q : String)
    (s : ViewerState) (h : pyStrip q = "") :
    search_tree b1 b2 b3 q s = update_status "Please enter search text" s := by
  simp [search_tree, h, pyLower_empty]

/-- Witness for `empty_query_only_reports` on a whitespace query. -/
theorem empty_query_only_reports_witness :
    pyStrip "   " = "" ∧
      search_tree true true true "   " viewerWithResult =
        update_status "Please enter search text" viewerWithResult :=
  ⟨by decide, empty_query_only_reports true true true "   " viewerWithResult (by decide)⟩

/-- C4 counterexample: at a state holding one match (cursor 0, item 0
highlighted), a whitespace-only query leaves the match list, cursor and
highlight exactly as they were — the claim says they are cleared. -/
theorem empty_query_keeps_results_cex :
    ¬ ((search_tree true true true "   " viewerWithResult).searchResults = [] ∧
        (search_tree true true true "   " viewerWithResult).currentResultIndex = -1 ∧
        (search_tree true true true "   " viewerWithResult).yellow = []) := by
  decide

/-- C5 (amended): a successful load replaces the tree wholesale and clears
every highlight, but the search state is NOT discarded with it: the match
list and cursor keep their pre-load values (positions into the discarded
tree) until the next search. -/
theorem open_file_success_behavior (ds : List Element)
    (filePath baseName : String) (s : ViewerState) :
    open_file (.ok ds) filePath baseName s =
      { s with tree := add_dicom_elements_to_tree ds,
               yellow := [],
               windowTitle := "DICOM Viewer - " ++ baseName,
               lastFilePath := some filePath,
               statusLog := s.statusLog ++
                 ["Successfully opened file: " ++ baseName] } := rfl

/-- C5 counterexample: loading a new file at a state with one search match
leaves the old match list and cursor in place, so the derived search state
is not discarded with the old tree as the claim states. -/
theorem load_keeps_stale_search_state_cex :
    ¬ ((open_file (.ok [patientNameElem]) "/data/b.dcm" "b.dcm"
          viewerWithResult).searchResults = [] ∧
        (open_file (.ok [patientNameElem]) "/data/b.dcm" "b.dcm"
          viewerWithResult).currentResultIndex = -1) := by
  decide

/-! ## Claims C6 - C8 -/

/-- C6: a node (the one at pre-order position `i`) is in the match list if
and only if, for at least one enabled field, the lower-cased query is a
substring of that field's lower-cased column text — logical OR across the
enabled fields; a disabled field never contributes. -/
theorem match_list_membership_or (tree : List TreeNode) (q : String)
    (b1 b2 b3 : Bool) (i : Nat) (h : i < (flattenForest tree).length) :
    i ∈ find_matching_items tree (pyLower q) b1 b2 b3 ↔
      ((b1 = true ∧
          strContains (pyLower ((flattenForest tree).getD i default).col0)
            (pyLower q) = true) ∨
        (b2 = true ∧
          strContains (pyLower ((flattenForest tree).getD i default).col1)
            (pyLower q) = true) ∨
        (b3 = true ∧
          strContains (pyLower ((flattenForest tree).getD i default).col3)
            (pyLower q) = true)) := by
  rw [mem_find_matching_items]
  simp only [nodeMatches, h, true_and, Bool.or_eq_true, Bool.and_eq_true]
  tauto

/-- Witness for `match_list_membership_or`: one leaf node, value-only
search for "doe". -/
theorem match_list_membership_or_witness :
    0 < (flattenForest [patientNameNode]).length ∧
      (0 ∈ find_matching_items [patientNameNode] (pyLower "Doe") false false true ↔
        ((false = true ∧
            strContains (pyLower ((flattenForest [patientNameNode]).getD 0 default).col0)
              (pyLower "Doe") = true) ∨
          (false = true ∧
            strContains (pyLower ((flattenForest [patientNameNode]).getD 0 default).col1)
              (pyLower "Doe") = true) ∨
          (true = true ∧
            strContains (pyLower ((flattenForest [patientNameNode]).getD 0 default).col3)
              (pyLower "Doe") = true))) :=
  ⟨by simp [flattenForest_cons, flattenForest],
    match_list_membership_or [patientNameNode] "Doe" false false true 0
      (by simp [flattenForest_cons, flattenForest])⟩

/-- C7: with a non-empty match list of length N, next/previous move the
cursor to `(cursor ± 1) mod N`, always non-negative; from a valid cursor,
N nexts return to the same cursor over the same match list, previous after
next returns to the prior cursor, and previous at cursor 0 wraps to N-1.
With an empty match list both are no-ops leaving the whole state (cursor
and highlight included) unchanged. -/
theorem cyclic_navigation (s : ViewerState) :
    (s.searchResults = [] →
        goto_next_result s = s ∧ goto_previous_result s = s) ∧
      (s.searchResults ≠ [] →
        ((goto_next_result s).currentResultIndex =
            (s.currentResultIndex + 1) % (s.searchResults.length : Int) ∧
          0 ≤ (goto_next_result s).currentResultIndex) ∧
        ((goto_previous_result s).currentResultIndex =
            (s.currentResultIndex - 1) % (s.searchResults.length : Int) ∧
          0 ≤ (goto_previous_result s).currentResultIndex) ∧
        (0 ≤ s.currentResultIndex →
          s.currentResultIndex < s.searchResults.length →
          ((goto_next_result^[s.searchResults.length] s).searchResults =
              s.searchResults ∧
            (goto_next_result^[s.searchResults.length] s).currentResultIndex =
              s.currentResultIndex) ∧
          (goto_previous_result (goto_next_result s)).currentResultIndex =
            s.currentResultIndex ∧
          (s.currentResultIndex = 0 →
            (goto_previous_result s).currentResultIndex =
              (s.searchResults.length : Int) - 1))) := by
  constructor
  · intro h
    constructor
    · unfold goto_next_result
      rw [if_pos (by simp [h])]
    · unfold goto_previous_result
      rw [if_pos (by simp [h])]
  · intro h
    have hlen : (0 : Int) < (s.searchResults.length : Int) := by
      exact_mod_cast List.length_pos.mpr h
    obtain ⟨hnc, hnr, _⟩ := goto_next_result_spec s h
    obtain ⟨hpc, hpr, _⟩ := goto_previous_result_spec s h
    refine ⟨⟨hnc, ?_⟩, ⟨hpc, ?_⟩, ?_⟩
    · rw [hnc]; exact Int.emod_nonneg _ (by omega)
    · rw [hpc]; exact Int.emod_nonneg _ (by omega)
    · intro h0 h1
      refine ⟨?_, ?_, ?_⟩
      · obtain ⟨hir, hic⟩ := goto_next_iterate s h h0 h1 s.searchResults.length
        exact ⟨hir, by rw [hic]; exact add_len_emod _ _ h0 h1⟩
      · have hne : (goto_next_result s).searchResults ≠ [] := by rw [hnr]; exact h
        obtain ⟨hpc2, _, _⟩ := goto_previous_result_spec _ hne
        rw [hpc2, hnc, hnr, emod_sub_one_emod, add_sub_cancel_right,
          Int.emod_eq_of_lt h0 h1]
      · intro hz
        rw [hpc, hz]
        have hm : (0 : Int) - 1 = -1 := by ring
        rw [hm, neg_one_emod _ hlen]

/-- Witness for `cyclic_navigation`: the empty no-op at `freshViewer`, and
the wraparound of previous at `viewerWithResult` (one match, cursor 0). -/
theorem cyclic_navigation_witness :
    (freshViewer.searchResults = [] ∧
        goto_next_result freshViewer = freshViewer) ∧
      (viewerWithResult.searchResults ≠ [] ∧
        (goto_previous_result viewerWithResult).currentResultIndex =
          (viewerWithResult.searchResults.length : Int) - 1) :=
  ⟨⟨rfl, ((cyclic_navigation freshViewer).1 rfl).1⟩,
    ⟨by decide,
      ((((cyclic_navigation viewerWithResult).2 (by decide)).2.2 (by decide)
        (by decide)).2.2) (by decide)⟩⟩

/-- C8: a valid search (non-empty stripped query, some flag enabled) sets
the match list to the pre-order match positions (strictly increasing =
flattened pre-order); when empty, it reports "no matches for {query}" with
the cursor left at -1 and no highlight; when non-empty, the cursor lands
on 0 via the immediate advance, the first match is highlighted, and the
match count is reported followed by "Result 1/N". -/
theorem valid_search_completion (s : ViewerState) (b1 b2 b3 : Bool)
    (q : String) (hq : pyStrip q ≠ "") (hf : (b1 || b2 || b3) = true) :
    (search_tree b1 b2 b3 q s).searchResults =
        find_matching_items s.tree (pyLower (pyStrip q)) b1 b2 b3 ∧
      List.Chain' (· < ·)
        (find_matching_items s.tree (pyLower (pyStrip q)) b1 b2 b3) ∧
      (find_matching_items s.tree (pyLower (pyStrip q)) b1 b2 b3 = [] →
        (search_tree b1 b2 b3 q s).currentResultIndex = -1 ∧
          (search_tree b1 b2 b3 q s).yellow = [] ∧
          (search_tree b1 b2 b3 q s).statusLog =
            s.statusLog ++
              ["No matches found for: " ++ pyLower (pyStrip q)]) ∧
      (∀ m ms,
        find_matching_items s.tree (pyLower (pyStrip q)) b1 b2 b3 = m :: ms →
        (search_tree b1 b2 b3 q s).currentResultIndex = 0 ∧
          (search_tree b1 b2 b3 q s).yellow = [m] ∧
          (search_tree b1 b2 b3 q s).statusLog =
            s.statusLog ++
              ["Found " ++ toString (m :: ms).length ++ " matches",
               "Result 1/" ++ toString (m :: ms).length]) := by
  have ht : pyLower (pyStrip q) ≠ "" := pyLower_ne_empty hq
  have hstep : search_tree b1 b2 b3 q s =
      (if (find_matching_items s.tree (pyLower (pyStrip q)) b1 b2 b3).isEmpty
        then
          update_status
            ("No matches found for: " ++ pyLower (pyStrip q))
            { reset_search_results s with
                searchResults :=
                  find_matching_items s.tree (pyLower (pyStrip q)) b1 b2 b3 }
        else
          goto_next_result
            (update_status
              ("Found " ++
                toString
                  (find_matching_items s.tree (pyLower (pyStrip q)) b1 b2 b3).length
                ++ " matches")
              { reset_search_results s with
                  searchResults :=
                    find_matching_items s.tree (pyLower (pyStrip q)) b1 b2 b3 })) := by
    simp only [search_tree, if_neg ht, hf, Bool.not_true, Bool.false_eq_true,
      if_false, reset_search_results, Bool.not_eq_eq_eq_not, Bool.not_false]
    split
    next hres => simp [hres]
    next hres => simp [hres]
  rcases hM : find_matching_items s.tree (pyLower (pyStrip q)) b1 b2 b3 with
    _ | ⟨m, ms⟩
  · rw [hM] at hstep
    simp only [List.isEmpty_nil, if_true] at hstep
    refine ⟨by rw [hstep]; simp [update_status, reset_search_results], ?_, ?_, ?_⟩
    · simp [List.chain'_nil]
    · intro _
      rw [hstep]
      simp [update_status, reset_search_results]
    · intro m ms hcontr
      exact absurd hcontr (by simp)
  · rw [hM] at hstep
    simp only [List.isEmpty_cons, if_false, Bool.false_eq_true] at hstep
    have hchain : List.Chain' (· < ·) (m :: ms) := by
      rw [← hM]
      exact (collectMatches_sorted _ b1 b2 b3 (flattenForest s.tree) 0).1
    have hadv := goto_next_from_reset
      (update_status
        ("Found " ++ toString (m :: ms).length ++ " matches")
        { reset_search_results s with searchResults := m :: ms })
      m ms (by simp [update_status, reset_search_results])
      (by simp [update_status, reset_search_results])
    rw [hadv] at hstep
    refine ⟨?_, hchain, ?_, ?_⟩
    · rw [hstep]
      simp [update_status]
    · intro hcontr
      exact absurd hcontr (by simp)
    · intro m2 ms2 heq
      have hm2 : m = m2 ∧ ms = ms2 := by simpa using heq
      obtain ⟨hm2a, hm2b⟩ := hm2
      subst hm2a; subst hm2b
      rw [hstep]
      refine ⟨by simp [update_status], by simp [update_status], ?_⟩
      simp [update_status, reset_search_results, List.append_assoc]

/-! ## Claims C9 - C10 -/
theorem buildElem_children (tag : Option (Nat × Nat)) (name vr : String)
    (value : EValue) :
    (buildElem (.mk tag name vr value)).children =
      if vr = "SQ" then buildValueItems value else [] := by
  simp only [buildElem]
  by_cases hvr : vr = "SQ"
  · rw [if_pos hvr, if_pos hvr]
    rfl
  · rw [if_neg hvr, if_neg hvr]
    by_cases hn : name ≠ "Pixel Data"
    · rw [if_pos hn]
      cases hsv : pyStrValue value <;> simp [TreeNode.children]
    · rw [if_neg hn]
      simp [TreeNode.children]

theorem buildElem_cols_eq (e : Element) :
    (buildElem e).cols = DocEntry.cols (.elem e) := by
  simp [DocEntry.cols]

mutual
theorem flattenCols_forest (ds : List Element) :
    (flattenForest (add_dicom_elements_to_tree ds)).map TreeNode.cols =
      (specDocOrder ds).map DocEntry.cols := by
  match ds with
  | [] => simp [add_dicom_elements_to_tree, flattenForest, specDocOrder]
  | e :: rest =>
    simp only [add_dicom_elements_to_tree, specDocOrder]
    rw [flattenForest_cons]
    simp only [List.map_cons, List.map_append]
    rw [flattenCols_children e, flattenCols_forest rest, buildElem_cols_eq]

theorem flattenCols_children (e : Element) :
    (flattenForest (buildElem e).children).map TreeNode.cols =
      (specDocChildren e).map DocEntry.cols := by
  match e with
  | .mk tag name vr value =>
    rw [buildElem_children]
    simp only [specDocChildren]
    by_cases hvr : vr = "SQ"
    · rw [if_pos hvr, if_pos hvr]
      exact flattenCols_valueItems value
    · rw [if_neg hvr, if_neg hvr]
      simp [flattenForest]

theorem flattenCols_valueItems (v : EValue) :
    (flattenForest (buildValueItems v)).map TreeNode.cols =
      (specDocValueItems v).map DocEntry.cols := by
  match v with
  | .items l =>
    simp only [buildValueItems, specDocValueItems]
    exact flattenCols_items l 0
  | .absent => simp [buildValueItems, specDocValueItems, flattenForest]
  | .scalar s => simp [buildValueItems, specDocValueItems, flattenForest]
  | .strFails msg => simp [buildValueItems, specDocValueItems, flattenForest]

theorem flattenCols_items (l : List (List Element)) (i : Nat) :
    (flattenForest (buildSeqItems l i)).map TreeNode.cols =
      (specDocItems l (i + 1)).map DocEntry.cols := by
  match l with
  | [] => simp [buildSeqItems, specDocItems, flattenForest]
  | it :: rest =>
    simp only [buildSeqItems, specDocItems]
    rw [flattenForest_cons]
    simp only [List.map_cons, List.map_append, TreeNode.children]
    rw [flattenCols_forest it, flattenCols_items rest (i + 1)]
    simp [TreeNode.cols, TreeNode.col0, TreeNode.col1, TreeNode.col2,
      TreeNode.col3, DocEntry.cols]
end

mutual
theorem specLen_forest (ds : List Element) :
    (specDocOrder ds).length = countElements ds + countSeqItems ds := by
  match ds with
  | [] => simp [specDocOrder, countElements, countSeqItems]
  | e :: rest =>
    simp only [specDocOrder, List.length_cons, List.length_append,
      countElements, countSeqItems]
    have h1 := specLen_children e
    have h2 := specLen_forest rest
    omega

theorem specLen_children (e : Element) :
    (specDocChildren e).length + 1 =
      countElementsOfElem e + countSeqItemsOfElem e := by
  match e with
  | .mk tag name vr value =>
    simp only [specDocChildren, countElementsOfElem, countSeqItemsOfElem]
    by_cases hvr : vr = "SQ"
    · rw [if_pos hvr, if_pos hvr, if_pos hvr]
      have h1 := specLen_valueItems value
      omega
    · rw [if_neg hvr, if_neg hvr, if_neg hvr]
      simp

theorem specLen_valueItems (v : EValue) :
    (specDocValueItems v).length =
      countElementsOfValue v + countSeqItemsOfValue v := by
  match v with
  | .items l =>
    simp only [specDocValueItems, countElementsOfValue, countSeqItemsOfValue]
    have h1 := specLen_items l 1
    omega
  | .absent => simp [specDocValueItems, countElementsOfValue, countSeqItemsOfValue]
  | .scalar s => simp [specDocValueItems, countElementsOfValue, countSeqItemsOfValue]
  | .strFails msg => simp [specDocValueItems, countElementsOfValue, countSeqItemsOfValue]

theorem specLen_items (l : List (List Element)) (k : Nat) :
    (specDocItems l k).length =
      countElementsOfItems l + (l.length + countSeqItemsOfItems l) := by
  match l with
  | [] => simp [specDocItems, countElementsOfItems, countSeqItemsOfItems]
  | it :: rest =>
    simp only [specDocItems, List.length_cons, List.length_append,
      countElementsOfItems, countSeqItemsOfItems]
    have h1 := specLen_forest it
    have h2 := specLen_items rest (k + 1)
    omega
end

/-- C9: pre-order flattening of the built tree lists, position by
position, exactly the document order of the source (one node per element,
one `Item k` header per sequence item, k = 1..N, headers immediately
before their item's sub-tree), and the total node count is the number of
source elements plus the number of sequence items — nothing is dropped or
reordered. -/
theorem builder_preserves_order_and_counts (ds : List Element) :
    (flattenForest (add_dicom_elements_to_tree ds)).map TreeNode.cols =
        (specDocOrder ds).map DocEntry.cols ∧
      (flattenForest (add_dicom_elements_to_tree ds)).length =
        countElements ds + countSeqItems ds := by
  refine ⟨flattenCols_forest ds, ?_⟩
  have h1 := congrArg List.length (flattenCols_forest ds)
  simpa [specLen_forest] using h1

/-- C10: the synthetic sequence-item header nodes carry their `Item k`
label in the Tag column (column 0) with empty Name/VR/Value columns, and a
tag-enabled search whose lower-cased query is a substring of the
lower-cased `"Item k"` label includes every such header node (at its
pre-order position `i`) in the match list. -/
theorem item_header_tag_column_and_search (ds : List Element) (q : String)
    (b2 b3 : Bool) (i k : Nat)
    (hk : (specDocOrder ds)[i]? = some (.header k)) :
    ((flattenForest (add_dicom_elements_to_tree ds)).map TreeNode.cols)[i]? =
        some ("Item " ++ toString k, "", "", "") ∧
      (strContains (pyLower ("Item " ++ toString k)) (pyLower q) = true →
        i ∈ find_matching_items (add_dicom_elements_to_tree ds) (pyLower q)
          true b2 b3) := by
  have hcols := flattenCols_forest ds
  have hrhs : ((specDocOrder ds).map DocEntry.cols)[i]? =
      some ("Item " ++ toString k, "", "", "") := by
    rw [List.getElem?_map, hk]
    simp [DocEntry.cols]
  have hget : ((flattenForest (add_dicom_elements_to_tree ds)).map
      TreeNode.cols)[i]? = some ("Item " ++ toString k, "", "", "") := by
    rw [hcols]
    exact hrhs
  refine ⟨hget, ?_⟩
  intro hsub
  rw [List.getElem?_map] at hget
  rcases hgn : (flattenForest (add_dicom_elements_to_tree ds))[i]? with _ | n
  · rw [hgn] at hget
    simp at hget
  · rw [hgn] at hget
    simp only [Option.map_some'] at hget
    have hn : n.cols = ("Item " ++ toString k, "", "", "") := by
      simpa using hget
    have hlen : i < (flattenForest (add_dicom_elements_to_tree ds)).length :=
      (List.getElem?_eq_some.mp hgn).1
    rw [mem_find_matching_items]
    refine ⟨hlen, ?_⟩
    have hd : (flattenForest (add_dicom_elements_to_tree ds)).getD i default = n := by
      rw [List.getD_eq_getElem?_getD, hgn]
      rfl
    have hcol0 : n.col0 = "Item " ++ toString k := by
      have := congrArg Prod.fst hn
      simpa [TreeNode.cols] using this
    rw [hd]
    simp [nodeMatches, hcol0, hsub]

/-- Witness for `valid_search_completion`: value-only search for "Doe"
(with surrounding whitespace) at `freshViewer`. -/
theorem valid_search_completion_witness :
    pyStrip "  Doe " ≠ "" ∧ (false || false || true) = true ∧
      (search_tree false false true "  Doe " freshViewer).searchResults =
        find_matching_items freshViewer.tree (pyLower (pyStrip "  Doe "))
          false false true :=
  ⟨by decide, by decide,
    (valid_search_completion freshViewer false false true "  Doe "
      (by decide) (by decide)).1⟩

/-- Witness for `item_header_tag_column_and_search`: the one-item sequence
`seqElem`, whose header sits at pre-order position 1, searched by tag for
"item". -/
theorem item_header_tag_column_and_search_witness :
    (specDocOrder [seqElem])[1]? = some (.header 1) ∧
      strContains (pyLower ("Item " ++ toString 1)) (pyLower "item") = true ∧
      1 ∈ find_matching_items (add_dicom_elements_to_tree [seqElem])
        (pyLower "item") true false false :=
  ⟨by simp [specDocOrder, specDocChildren, specDocValueItems, specDocItems,
      seqElem, patientNameElem],
    by decide,
    (item_header_tag_column_and_search [seqElem] "item" false false 1 1
      (by simp [specDocOrder, specDocChildren, specDocValueItems, specDocItems,
        seqElem, patientNameElem])).2 (by decide)⟩
